import Mathlib

/-!
# Form validation and theme toggle (static/script/script.js)

A shallow embedding of the single `DOMContentLoaded` listener of
`static/script/script.js` and of the two listeners it registers:

* the `submit` listener of the `.grid-form` form (lines 13-30),
* the `change` listener of every `#theme-toggle` element (lines 48-61).

The page is modelled as an explicit state (`World`) that is passed through each
listener.  The structure of the page (which elements exist) does not change
after load; only the properties of the elements do.  Browser built-ins
(`parseFloat`, `Number.isNaN`, `classList`, `localStorage`, `alert`, `focus`)
are modelled after their standard definitions.
-/

namespace GemstoneScript

/-! ## Browser built-ins: `parseFloat` and `Number.isNaN` -/

/-- Modelled from the spec: the built-in `parseFloat` is not part of the repository;
the specification asks for standard floating-point parsing, which is the `parseFloat`
of ECMA-262.  These are the characters its `TrimString(_, start)` step removes:
the `WhiteSpace` and `LineTerminator` code points. -/
def isStrWhiteSpaceChar (c : Char) : Bool :=
  let n := c.toNat
  n == 0x09 || n == 0x0A || n == 0x0B || n == 0x0C || n == 0x0D || n == 0x20 ||
  n == 0xA0 || n == 0x1680 || (0x2000 ≤ n && n ≤ 0x200A) || n == 0x2028 ||
  n == 0x2029 || n == 0x202F || n == 0x205F || n == 0x3000 || n == 0xFEFF

/-- Modelled from the spec: part of the built-in `parseFloat`, which is not in the
repository.  A `DecimalDigit` is one of `0` .. `9`. -/
def isDecimalDigit (c : Char) : Bool :=
  48 ≤ c.toNat && c.toNat ≤ 57

/-- Modelled from the spec: part of the built-in `parseFloat`, which is not in the
repository.  The text `Infinity` is an alternative of `StrUnsignedDecimalLiteral`. -/
def infinityText : List Char := ['I', 'n', 'f', 'i', 'n', 'i', 't', 'y']

/-- Modelled from the spec: part of the built-in `parseFloat`, which is not in the
repository.  The longest `ExponentPart` at the head of `cs` (empty when there is
none): `e` or `E`, an optional sign, and at least one digit. -/
def scanExponent (cs : List Char) : List Char :=
  match cs with
  | [] => []
  | c :: rest =>
    if c == 'e' || c == 'E' then
      match rest with
      | [] => []
      | s :: rest2 =>
        if s == '+' || s == '-' then
          (if rest2.takeWhile isDecimalDigit = [] then []
           else c :: s :: rest2.takeWhile isDecimalDigit)
        else
          (if rest.takeWhile isDecimalDigit = [] then []
           else c :: rest.takeWhile isDecimalDigit)
    else []

/-- Modelled from the spec: part of the built-in `parseFloat`, which is not in the
repository.  The longest head of `cs` that is a `StrUnsignedDecimalLiteral`, if
any. -/
def scanUnsigned (cs : List Char) : Option (List Char) :=
  if infinityText.isPrefixOf cs then some infinityText
  else
    let ip := cs.takeWhile isDecimalDigit
    match cs.dropWhile isDecimalDigit with
    | '.' :: r2 =>
      let fp := r2.takeWhile isDecimalDigit
      if ip = [] ∧ fp = [] then none
      else some (ip ++ '.' :: fp ++ scanExponent (r2.dropWhile isDecimalDigit))
    | r1 => if ip = [] then none else some (ip ++ scanExponent r1)

/-- Modelled from the spec: part of the built-in `parseFloat`, which is not in the
repository.  The longest head of `cs` that is a `StrDecimalLiteral` (optional sign,
then an unsigned literal), if any. -/
def scanDecimalLiteral (cs : List Char) : Option (List Char) :=
  match cs with
  | [] => none
  | c :: rest =>
    if c == '+' || c == '-' then (scanUnsigned rest).map (fun l => c :: l)
    else scanUnsigned cs

/-- Modelled from the spec: the Number type of the language, which is not in the
repository, as far as the script observes it: either `NaN`, or the value of the
literal that was parsed (kept as its text; it may denote a finite number or an
infinity, never `NaN`). -/
inductive JSNumber where
  | nan : JSNumber
  | ofLiteral (text : List Char) : JSNumber
  deriving DecidableEq, Repr

/-- Modelled from the spec: the built-in `parseFloat(string)`, which is not in the
repository, after ECMA-262 (standard floating-point parsing): trim leading white
space, take the longest head that is a `StrDecimalLiteral`; `NaN` when there is
none, the value of that literal otherwise. -/
def parseFloat (s : String) : JSNumber :=
  match scanDecimalLiteral (s.toList.dropWhile isStrWhiteSpaceChar) with
  | none => JSNumber.nan
  | some lit => JSNumber.ofLiteral lit

/-- Modelled from the spec: the built-in `Number.isNaN`, which is not in the
repository. -/
def Number.isNaN (v : JSNumber) : Bool :=
  match v with
  | JSNumber.nan => true
  | JSNumber.ofLiteral _ => false

/-! ## The page -/

/-- An element's `classList` (a `DOMTokenList`), in token order. -/
abbrev ClassList := List String

/-- The method `classList.add(token)`: append the token unless it is present. -/
def ClassList.add (cl : ClassList) (token : String) : ClassList :=
  if token ∈ cl then cl else cl ++ [token]

/-- The method `classList.remove(token)`: drop every occurrence of the token. -/
def ClassList.remove (cl : ClassList) (token : String) : ClassList :=
  cl.filter (fun t => t != token)

/-- The element that has input focus (`document.activeElement`). -/
inductive Focus where
  | nothing : Focus
  | byId (id : String) : Focus
  | toggle (index : Nat) : Focus
  | button : Focus
  deriving DecidableEq, Repr

/-- An element that carries an `id`: its current `value` text, and whether it can
take input focus.  A disabled or hidden element cannot: `focus()` called on it
leaves the focus where it was. -/
structure Element where
  id : String
  value : String
  focusable : Bool
  deriving DecidableEq, Repr

/-- The `.grid-form` form: `button` is the result of `form.querySelector("button")`,
the class list of the first button inside the form, or `none` (JavaScript `null`)
when the form holds no button. -/
structure Form where
  button : Option ClassList
  deriving DecidableEq, Repr

/-- The document.  `form` is the result of `document.querySelector(".grid-form")`;
`ids` lists the elements that carry an `id` other than the toggles, in document
order; `themeToggles` holds the `checked`
state of each element of `document.querySelectorAll("#theme-toggle")`, in
document order; `body` is `document.body.classList`. -/
structure Dom where
  form : Option Form
  ids : List Element
  themeToggles : List Bool
  body : ClassList
  activeElement : Focus
  deriving DecidableEq, Repr

/-- A blocking `alert` dialog: its message, and the document as it stands while
the dialog is open. -/
structure AlertShown where
  message : String
  page : Dom
  deriving DecidableEq, Repr

/-- The listeners registered so far: `submit` tells whether the form carries the
submit listener, `change` is the number of toggles (from the first on) that
carry a change listener. -/
structure Listeners where
  submit : Bool
  change : Nat
  deriving DecidableEq, Repr

/-- Everything the script reads or writes: the document, `localStorage` (a list
of key/value pairs, at most one per key in use), the dialogs shown so far and the
registered listeners. -/
structure World where
  dom : Dom
  storage : List (String × String)
  alerts : List AlertShown
  listeners : Listeners
  deriving DecidableEq, Repr

/-- The call `document.getElementById(id)`, giving the first element with that id,
or `none` (JavaScript `null`) when there is no such element. -/
def Dom.getElementById (d : Dom) (id : String) : Option Element :=
  d.ids.find? (fun e => e.id == id)

/-- The call `el.focus()` on the element `el` found under `id`: the element becomes
the active element when it can take focus; otherwise nothing changes. -/
def Dom.focus (d : Dom) (id : String) (el : Element) : Dom :=
  if el.focusable then { d with activeElement := Focus.byId id } else d

/-- The call `localStorage.getItem(key)`. -/
def getItem (storage : List (String × String)) (key : String) : Option String :=
  (storage.find? (fun e => e.1 == key)).map (fun e => e.2)

/-- The call `localStorage.setItem(key, value)`. -/
def setItem (storage : List (String × String)) (key value : String) :
    List (String × String) :=
  (key, value) :: storage.filter (fun e => e.1 != key)

/-- The class of the body that stands for dark mode. -/
def darkMode : String := "dark-mode"

/-- The class of the button that stands for a submission in progress. -/
def loading : String := "loading"

/-! ## The submit listener (lines 13-30) -/

/-- An exception raised by a listener. -/
inductive JSError where
  | typeError : JSError
  deriving DecidableEq, Repr

/-- What a run of the submit listener leaves behind: the world, whether
`e.preventDefault()` was called, and the exception that ended the run, if any. -/
structure SubmitOutcome where
  world : World
  defaultPrevented : Bool
  thrown : Option JSError
  deriving DecidableEq, Repr

/-- The constant `numericIds` of line 16. -/
def numericIds : List String := ["carat", "depth", "table", "x", "y", "z"]

/-- The template literal of line 23. -/
def alertMessage (id : String) : String :=
  "Please enter a valid number for \"" ++ id ++ "\"."

/-- Replace the class list of the form's button. -/
def Dom.setButton (d : Dom) (cl : ClassList) : Dom :=
  { d with form := d.form.map (fun _ => { button := some cl }) }

/-- The body of the `if (Number.isNaN(value))` branch, lines 23-27, for the
element `el` found under `id`; `cl` is the class list of the button when the
branch is entered. -/
def rejectField (w : World) (cl : ClassList) (id : String) (el : Element) : SubmitOutcome :=
  let w1 : World := { w with alerts := w.alerts ++ [{ message := alertMessage id, page := w.dom }] }
  let w2 : World := { w1 with dom := w1.dom.focus id el }
  let w3 : World := { w2 with dom := w2.dom.setButton (cl.remove loading) }
  { world := w3, defaultPrevented := true, thrown := none }

/-- The loop `for (const id of numericIds)` of lines 17-29, run over the ids that
are left; `cl` is the class list of the button. -/
def validateLoop (w : World) (cl : ClassList) : List String → SubmitOutcome
  | [] => { world := w, defaultPrevented := false, thrown := none }
  | id :: rest =>
    match w.dom.getElementById id with
    | none => validateLoop w cl rest
    | some el =>
      if Number.isNaN (parseFloat el.value) then rejectField w cl id el
      else validateLoop w cl rest

/-- The submit listener of lines 13-30.  It is registered only when the form
exists (line 10), so without a form nothing runs.  `button` was bound at line 11
by `form.querySelector("button")`; when it is `null`, line 14 raises a `TypeError`
before anything else happens. -/
def submitListener (w : World) : SubmitOutcome :=
  match w.dom.form with
  | none => { world := w, defaultPrevented := false, thrown := none }
  | some form =>
    match form.button with
    | none => { world := w, defaultPrevented := false, thrown := some JSError.typeError }
    | some cl =>
      let w1 : World := { w with dom := w.dom.setButton (cl.add loading) }
      validateLoop w1 (cl.add loading) numericIds

/-! ## Startup (lines 4-62) and the change listener (lines 48-61) -/

/-- The expression `localStorage.getItem("theme") || "light"` of line 39: the
stored text, or `"light"` when it is `null` or the empty string. -/
def savedTheme (storage : List (String × String)) : String :=
  match getItem storage "theme" with
  | none => "light"
  | some v => if v = "" then "light" else v

/-- The change listener of lines 48-61 of the toggle at position `index`.  It
reads the current `checked` state of that toggle.  A position without a toggle
has no listener, so nothing runs there. -/
def changeListener (index : Nat) (w : World) : World :=
  match w.dom.themeToggles[index]? with
  | none => w
  | some isDark =>
    let w1 : World :=
      if isDark then
        { w with dom := { w.dom with body := w.dom.body.add darkMode },
                 storage := setItem w.storage "theme" "dark" }
      else
        { w with dom := { w.dom with body := w.dom.body.remove darkMode },
                 storage := setItem w.storage "theme" "light" }
    { w1 with dom := { w1.dom with themeToggles := w1.dom.themeToggles.map (fun _ => isDark) } }

/-- The `DOMContentLoaded` listener of lines 4-62. -/
def domContentLoaded (w : World) : World :=
  let w1 : World :=
    match w.dom.form with
    | some _ => { w with listeners := { w.listeners with submit := true } }
    | none => w
  let theme := savedTheme w1.storage
  let w2 : World :=
    if theme = "dark" then { w1 with dom := { w1.dom with body := w1.dom.body.add darkMode } }
    else w1
  { w2 with dom := { w2.dom with themeToggles := w2.dom.themeToggles.map (fun _ => decide (theme = "dark")) },
            listeners := { w2.listeners with change := w2.dom.themeToggles.length } }

/-! ## Events -/

/-- The user sets the toggle at position `index` to `checked`; the browser then
dispatches `change` to that toggle. -/
def changeEvent (w : World) (ev : Nat × Bool) : World :=
  changeListener ev.1 { w with dom := { w.dom with themeToggles := w.dom.themeToggles.set ev.1 ev.2 } }

/-- A sequence of change events, oldest first. -/
def changeEvents (w : World) (evs : List (Nat × Bool)) : World :=
  evs.foldl changeEvent w

/-- Reloading the page: the document is built afresh from `markup`, no dialog is
open and no listener is registered; `localStorage` is retained. -/
def reload (markup : Dom) (w : World) : World :=
  { dom := markup, storage := w.storage, alerts := [],
    listeners := { submit := false, change := 0 } }

/-! ## The grammar of `StrDecimalLiteral` (ECMA-262, StringNumericLiteral) -/

/-- The production `DecimalDigits`: one or more decimal digits. -/
def DecimalDigits (ds : List Char) : Prop :=
  ds ≠ [] ∧ ∀ c ∈ ds, isDecimalDigit c = true

/-- The production `ExponentPart`: `e` or `E`, an optional sign, `DecimalDigits`. -/
inductive ExponentPart : List Char → Prop
  | unsigned (ind : Char) (ds : List Char) :
      (ind = 'e' ∨ ind = 'E') → DecimalDigits ds → ExponentPart (ind :: ds)
  | signed (ind sign : Char) (ds : List Char) :
      (ind = 'e' ∨ ind = 'E') → (sign = '+' ∨ sign = '-') → DecimalDigits ds →
      ExponentPart (ind :: sign :: ds)

/-- The production `StrUnsignedDecimalLiteral`. -/
inductive StrUnsignedDecimalLiteral : List Char → Prop
  | infinity : StrUnsignedDecimalLiteral infinityText
  | intDot (ip fp ex : List Char) :
      DecimalDigits ip → (fp = [] ∨ DecimalDigits fp) → (ex = [] ∨ ExponentPart ex) →
      StrUnsignedDecimalLiteral (ip ++ '.' :: fp ++ ex)
  | dotFrac (fp ex : List Char) :
      DecimalDigits fp → (ex = [] ∨ ExponentPart ex) →
      StrUnsignedDecimalLiteral ('.' :: fp ++ ex)
  | int (ip ex : List Char) :
      DecimalDigits ip → (ex = [] ∨ ExponentPart ex) →
      StrUnsignedDecimalLiteral (ip ++ ex)

/-- The production `StrDecimalLiteral`: an unsigned literal with an optional sign. -/
inductive StrDecimalLiteral : List Char → Prop
  | unsigned (l : List Char) : StrUnsignedDecimalLiteral l → StrDecimalLiteral l
  | plus (l : List Char) : StrUnsignedDecimalLiteral l → StrDecimalLiteral ('+' :: l)
  | minus (l : List Char) : StrUnsignedDecimalLiteral l → StrDecimalLiteral ('-' :: l)

/-- The text `cs` starts with a decimal number literal. -/
def StartsWithLiteral (cs : List Char) : Prop :=
  ∃ lit suffix, cs = lit ++ suffix ∧ StrDecimalLiteral lit

/-- The validity test of lines 21-22 on the text `t` of a field that is present:
`!Number.isNaN(parseFloat(t))`. -/
def validNumberText (t : String) : Bool :=
  !Number.isNaN (parseFloat t)

/-! ## Predicates used to state the properties -/

/-- The field `id` is present and its text does not parse as a number. -/
def invalidField (d : Dom) (id : String) : Bool :=
  match d.getElementById id with
  | none => false
  | some el => !validNumberText el.value

/-- The body carries the dark-mode class. -/
def isDarkPage (w : World) : Prop := darkMode ∈ w.dom.body

/-- The button of the form carries the loading class. -/
def buttonLoading (d : Dom) : Prop :=
  ∃ form cl, d.form = some form ∧ form.button = some cl ∧ loading ∈ cl

/-- Agreement of the theme state: every toggle is checked exactly when the body
carries the dark-mode class, and exactly when the stored preference is `"dark"`;
the stored preference is `"dark"` or `"light"`. -/
def themeAgrees (w : World) : Prop :=
  (∀ t ∈ w.dom.themeToggles, (t = true ↔ darkMode ∈ w.dom.body)) ∧
  (darkMode ∈ w.dom.body ↔ getItem w.storage "theme" = some "dark") ∧
  (getItem w.storage "theme" = some "dark" ∨ getItem w.storage "theme" = some "light")

/-- The toggles agree with the dark-mode class alone. -/
def togglesMatchClass (w : World) : Prop :=
  ∀ t ∈ w.dom.themeToggles, (t = true ↔ darkMode ∈ w.dom.body)

/-- A page with the form but no button inside it, and a `carat` field holding `abc`. -/
def pageWithoutButton : World :=
  { dom := { form := some { button := none }, ids := [{ id := "carat", value := "abc", focusable := true }], themeToggles := [],
             body := [], activeElement := Focus.nothing },
    storage := [], alerts := [], listeners := { submit := false, change := 0 } }

/-- A page with two toggles, both unchecked in the markup, and nothing stored. -/
def pageTwoToggles : World :=
  { dom := { form := none, ids := [], themeToggles := [false, false], body := [],
             activeElement := Focus.nothing },
    storage := [], alerts := [], listeners := { submit := false, change := 0 } }

/-- A page whose markup already puts the dark-mode class on the body, with one
toggle checked in the markup and `light` stored. -/
def pageDarkMarkup : World :=
  { dom := { form := none, ids := [], themeToggles := [true], body := ["dark-mode"],
             activeElement := Focus.nothing },
    storage := [("theme", "light")], alerts := [],
    listeners := { submit := false, change := 0 } }

/-- A page with the form and its button, on which the button has the focus and
the `carat` field is disabled (it cannot take focus) and holds `abc`. -/
def pageDisabledCarat : World :=
  { dom := { form := some { button := some ["btn"] },
             ids := [{ id := "carat", value := "abc", focusable := false }],
             themeToggles := [], body := [], activeElement := Focus.button },
    storage := [], alerts := [], listeners := { submit := true, change := 0 } }

/-- A page with the form, its button, a valid `carat` and an invalid `depth` and `x`. -/
def pageInvalidDepth : World :=
  { dom := { form := some { button := some ["btn"] },
             ids := [{ id := "carat", value := "0.7", focusable := true },
                     { id := "depth", value := "deep", focusable := true },
                     { id := "x", value := "", focusable := true }],
             themeToggles := [true],
             body := [], activeElement := Focus.button },
    storage := [], alerts := [], listeners := { submit := true, change := 1 } }

/-! ## Facts about the built-ins -/

theorem isDecimalDigit_not_sign {c : Char} (h : isDecimalDigit c = true) :
    (c == '+' || c == '-') = false := by
  simp only [Bool.or_eq_false_iff, beq_eq_false_iff_ne, ne_eq]
  constructor <;> (rintro rfl; revert h; decide)

theorem takeWhile_digit_cons {c : Char} (h : isDecimalDigit c = true) (r : List Char) :
    (c :: r).takeWhile isDecimalDigit ≠ [] := by
  simp [List.takeWhile, h]

/-- The test on the head of a text that decides whether an unsigned literal starts
there: `Infinity`, a digit, or a dot followed by a digit. -/
theorem scanUnsigned_isSome_iff (cs : List Char) :
    (scanUnsigned cs).isSome = true ↔
      (infinityText.isPrefixOf cs = true ∨
       (∃ d r, cs = d :: r ∧ isDecimalDigit d = true) ∨
       (∃ d r, cs = '.' :: d :: r ∧ isDecimalDigit d = true)) := by
  unfold scanUnsigned
  by_cases hinf : infinityText.isPrefixOf cs = true
  · simp [hinf]
  · simp only [hinf, Bool.false_eq_true, if_false, false_or]
    cases cs with
    | nil => simp
    | cons c r =>
      by_cases hc : isDecimalDigit c = true
      · have hne : (c :: r).takeWhile isDecimalDigit ≠ [] := takeWhile_digit_cons hc r
        constructor
        · intro _; exact Or.inl ⟨c, r, rfl, hc⟩
        · intro _
          split
          · simp [hne]
          · simp [hne]
      · have hc2 : isDecimalDigit c = false := by simpa using hc
        have htw : (c :: r).takeWhile isDecimalDigit = [] := by simp [List.takeWhile, hc2]
        have hdw : (c :: r).dropWhile isDecimalDigit = c :: r := by simp [List.dropWhile, hc2]
        rw [hdw]
        by_cases hdot : c = '.'
        · subst hdot
          cases r with
          | nil => simp [htw]; exact hc2
          | cons d r2 =>
            by_cases hd : isDecimalDigit d = true
            · have := takeWhile_digit_cons hd r2
              simp [htw, this]
              exact Or.inr hd
            · have hd2 : isDecimalDigit d = false := by simpa using hd
              simp [htw, List.takeWhile, hd2, hc2]
        · have : ∀ r2, c :: r ≠ '.' :: r2 := by
            intro r2 h; injection h with h1 _; exact hdot h1
          split
          · rename_i r2 heq; exact absurd heq (this r2)
          · simp [htw]
            exact ⟨hc2, fun _ h1 => absurd h1 hdot⟩

theorem decimalDigits_head {ds : List Char} (h : DecimalDigits ds) :
    ∃ d r, ds = d :: r ∧ isDecimalDigit d = true := by
  obtain ⟨hne, hall⟩ := h
  cases ds with
  | nil => exact absurd rfl hne
  | cons d r => exact ⟨d, r, rfl, hall d (List.mem_cons_self d r)⟩

theorem decimalDigits_single {d : Char} (h : isDecimalDigit d = true) : DecimalDigits [d] := by
  refine ⟨by simp, ?_⟩
  intro c hc
  simp only [List.mem_singleton] at hc
  subst hc; exact h

theorem infinity_isPrefixOf_split {cs : List Char} (h : infinityText.isPrefixOf cs = true) :
    ∃ suffix, cs = infinityText ++ suffix := by
  obtain ⟨t, ht⟩ := ( List.isPrefixOf_iff_prefix).mp h
  exact ⟨t, ht.symm⟩

/-- An unsigned literal starts a text exactly when the scanner finds one. -/
theorem scanUnsigned_isSome_iff_grammar (cs : List Char) :
    (scanUnsigned cs).isSome = true ↔
      ∃ lit suffix, cs = lit ++ suffix ∧ StrUnsignedDecimalLiteral lit := by
  rw [scanUnsigned_isSome_iff]
  constructor
  · rintro (h | ⟨d, r, rfl, hd⟩ | ⟨d, r, rfl, hd⟩)
    · obtain ⟨suffix, hs⟩ := infinity_isPrefixOf_split h
      exact ⟨infinityText, suffix, hs, StrUnsignedDecimalLiteral.infinity⟩
    · refine ⟨[d] ++ [], r, by simp, ?_⟩
      exact StrUnsignedDecimalLiteral.int [d] [] (decimalDigits_single hd) (Or.inl rfl)
    · refine ⟨'.' :: [d] ++ [], r, by simp, ?_⟩
      exact StrUnsignedDecimalLiteral.dotFrac [d] [] (decimalDigits_single hd) (Or.inl rfl)
  · rintro ⟨lit, suffix, rfl, hlit⟩
    cases hlit with
    | infinity => left; simp [infinityText, List.isPrefixOf]
    | intDot ip fp ex hip _ _ =>
      obtain ⟨d, r, rfl, hd⟩ := decimalDigits_head hip
      right; left; exact ⟨d, _, rfl, hd⟩
    | dotFrac fp ex hfp _ =>
      obtain ⟨d, r, rfl, hd⟩ := decimalDigits_head hfp
      right; right; exact ⟨d, _, rfl, hd⟩
    | int ip ex hip _ =>
      obtain ⟨d, r, rfl, hd⟩ := decimalDigits_head hip
      right; left; exact ⟨d, _, rfl, hd⟩

/-- The head of an unsigned literal is never a sign. -/
theorem unsigned_head_not_sign {c : Char} {r : List Char}
    (h : (scanUnsigned (c :: r)).isSome = true) : (c == '+' || c == '-') = false := by
  rw [scanUnsigned_isSome_iff] at h
  rcases h with h | ⟨d, r2, heq, hd⟩ | ⟨d, r2, heq, _⟩
  · obtain ⟨suffix, hs⟩ := infinity_isPrefixOf_split h
    simp only [infinityText, List.cons_append, List.cons.injEq] at hs
    rw [hs.1]; decide
  · injection heq with h1 _; subst h1; exact isDecimalDigit_not_sign hd
  · injection heq with h1 _; subst h1; decide

/-- A decimal number literal starts a text exactly when the scanner finds one. -/
theorem scanDecimalLiteral_isSome_iff (cs : List Char) :
    (scanDecimalLiteral cs).isSome = true ↔ StartsWithLiteral cs := by
  unfold StartsWithLiteral
  constructor
  · intro h
    cases cs with
    | nil => simp [scanDecimalLiteral] at h
    | cons c r =>
      unfold scanDecimalLiteral at h
      by_cases hs : (c == '+' || c == '-') = true
      · simp only [hs, if_true, Option.isSome_map'] at h
        obtain ⟨lit, suffix, rfl, hlit⟩ := (scanUnsigned_isSome_iff_grammar r).mp h
        simp only [Bool.or_eq_true, beq_iff_eq] at hs
        rcases hs with rfl | rfl
        · exact ⟨'+' :: lit, suffix, rfl, StrDecimalLiteral.plus lit hlit⟩
        · exact ⟨'-' :: lit, suffix, rfl, StrDecimalLiteral.minus lit hlit⟩
      · simp only [hs, Bool.false_eq_true, if_false] at h
        obtain ⟨lit, suffix, heq, hlit⟩ := (scanUnsigned_isSome_iff_grammar (c :: r)).mp h
        exact ⟨lit, suffix, heq, StrDecimalLiteral.unsigned lit hlit⟩
  · rintro ⟨lit, suffix, rfl, hlit⟩
    cases hlit with
    | unsigned _ hl =>
      have h1 : (scanUnsigned (lit ++ suffix)).isSome = true :=
        (scanUnsigned_isSome_iff_grammar _).mpr ⟨lit, suffix, rfl, hl⟩
      cases hls : lit ++ suffix with
      | nil => rw [hls] at h1; simp [scanUnsigned, infinityText, List.isPrefixOf] at h1
      | cons c r =>
        rw [hls] at h1
        have h2 := unsigned_head_not_sign h1
        unfold scanDecimalLiteral
        simp only [h2, Bool.false_eq_true, if_false]
        exact h1
    | plus l hl =>
      have h1 : (scanUnsigned (l ++ suffix)).isSome = true :=
        (scanUnsigned_isSome_iff_grammar _).mpr ⟨l, suffix, rfl, hl⟩
      simpa [scanDecimalLiteral] using h1
    | minus l hl =>
      have h1 : (scanUnsigned (l ++ suffix)).isSome = true :=
        (scanUnsigned_isSome_iff_grammar _).mpr ⟨l, suffix, rfl, hl⟩
      simpa [scanDecimalLiteral] using h1

/-- The validity test in terms of the grammar: the text is accepted exactly when,
after its leading white space, it starts with a decimal number literal. -/
theorem validNumberText_iff (t : String) :
    validNumberText t = true ↔
      StartsWithLiteral (t.toList.dropWhile isStrWhiteSpaceChar) := by
  rw [← scanDecimalLiteral_isSome_iff]
  unfold validNumberText parseFloat
  cases scanDecimalLiteral (t.toList.dropWhile isStrWhiteSpaceChar) <;> simp [Number.isNaN]

/-- A decimal number literal is not empty and does not start with white space. -/
theorem literal_head_not_whitespace {lit : List Char} (h : StrDecimalLiteral lit) :
    ∃ c r, lit = c :: r ∧ isStrWhiteSpaceChar c = false := by
  have hd : ∀ {d : Char}, isDecimalDigit d = true → isStrWhiteSpaceChar d = false := by
    intro d hd
    simp only [isDecimalDigit, Bool.and_eq_true, decide_eq_true_eq] at hd
    simp only [isStrWhiteSpaceChar, Bool.or_eq_false_iff, Bool.and_eq_false_iff,
      beq_eq_false_iff_ne, decide_eq_false_iff_not, ne_eq]
    omega
  have hu : ∀ {l : List Char}, StrUnsignedDecimalLiteral l →
      ∃ c r, l = c :: r ∧ isStrWhiteSpaceChar c = false := by
    intro l hl
    cases hl with
    | infinity => exact ⟨'I', _, rfl, by decide⟩
    | intDot ip fp ex hip _ _ =>
      obtain ⟨d, r, rfl, hdd⟩ := decimalDigits_head hip
      exact ⟨d, _, rfl, hd hdd⟩
    | dotFrac fp ex _ _ => exact ⟨'.', _, rfl, by decide⟩
    | int ip ex hip _ =>
      obtain ⟨d, r, rfl, hdd⟩ := decimalDigits_head hip
      exact ⟨d, _, rfl, hd hdd⟩
  cases h with
  | unsigned _ hl => exact hu hl
  | plus l _ => exact ⟨'+', l, rfl, by decide⟩
  | minus l _ => exact ⟨'-', l, rfl, by decide⟩

/-- Leading white space in front of a literal is exactly what `dropWhile` removes. -/
theorem dropWhile_whitespace_literal (ws lit suffix : List Char)
    (hws : ∀ c ∈ ws, isStrWhiteSpaceChar c = true) (hlit : StrDecimalLiteral lit) :
    (ws ++ lit ++ suffix).dropWhile isStrWhiteSpaceChar = lit ++ suffix := by
  obtain ⟨c, r, rfl, hc⟩ := literal_head_not_whitespace hlit
  induction ws with
  | nil => simp [List.dropWhile, hc]
  | cons a rest ih =>
    have ha : isStrWhiteSpaceChar a = true := hws a (List.mem_cons_self a rest)
    have hrest : ∀ c ∈ rest, isStrWhiteSpaceChar c = true :=
      fun c hc => hws c (List.mem_cons_of_mem a hc)
    simp only [List.cons_append, List.dropWhile, ha]
    exact ih hrest

/-! ## The validity test (C8) -/

/-- C8: the validity test `!Number.isNaN(parseFloat(t))` rejects the empty text and
every text that, once its leading white space is removed, does not start with a
decimal number literal (such as `abc`, `-`, `.`); it accepts every text made of
leading white space, a decimal number literal and any suffix (such as `  1.5`,
`12abc`, `3e`); a literal of any length, however large the number it denotes, is
accepted like any other.  The decimal number literal is the `StrDecimalLiteral` of
ECMA-262, the grammar `parseFloat` is defined by; it includes a sign and the
word `Infinity`. -/
theorem validNumberText_spec :
    validNumberText "" = false ∧
    (∀ t : String, ¬ StartsWithLiteral (t.toList.dropWhile isStrWhiteSpaceChar) →
      validNumberText t = false) ∧
    (validNumberText "abc" = false ∧ validNumberText "-" = false ∧
      validNumberText "." = false) ∧
    (∀ (t : String) (ws lit suffix : List Char), t.toList = ws ++ lit ++ suffix →
      (∀ c ∈ ws, isStrWhiteSpaceChar c = true) → StrDecimalLiteral lit →
      validNumberText t = true) ∧
    (validNumberText "  1.5" = true ∧ validNumberText "12abc" = true ∧
      validNumberText "3e" = true) ∧
    (∀ (t : String), DecimalDigits t.toList → validNumberText t = true) ∧
    validNumberText "1e99999" = true := by
  have accept : ∀ (t : String) (ws lit suffix : List Char), t.toList = ws ++ lit ++ suffix →
      (∀ c ∈ ws, isStrWhiteSpaceChar c = true) → StrDecimalLiteral lit →
      validNumberText t = true := by
    intro t ws lit suffix ht hws hlit
    rw [validNumberText_iff, ht, dropWhile_whitespace_literal ws lit suffix hws hlit]
    exact ⟨lit, suffix, rfl, hlit⟩
  refine ⟨by decide, ?_, ⟨by decide, by decide, by decide⟩, accept,
    ⟨by decide, by decide, by decide⟩, ?_, by decide⟩
  · intro t ht
    cases h : validNumberText t with
    | false => rfl
    | true => exact absurd ((validNumberText_iff t).mp h) ht
  · intro t ht
    refine accept t [] t.toList [] (by simp) (by simp) ?_
    have := StrUnsignedDecimalLiteral.int t.toList [] ht (Or.inl rfl)
    rw [List.append_nil] at this
    exact StrDecimalLiteral.unsigned _ this

/-- C8 at the text `  -2.5e3kg`: white space, the literal `-2.5e3`, the suffix `kg`. -/
theorem validNumberText_spec_witness : validNumberText "  -2.5e3kg" = true :=
  validNumberText_spec.2.2.2.1 "  -2.5e3kg" [' ', ' '] ['-', '2', '.', '5', 'e', '3'] ['k', 'g']
    (by decide) (by decide)
    (StrDecimalLiteral.minus _
      (StrUnsignedDecimalLiteral.intDot ['2'] ['5'] ['e', '3']
        (decimalDigits_single (by decide)) (Or.inr (decimalDigits_single (by decide)))
        (Or.inr (ExponentPart.unsigned 'e' ['3'] (Or.inl rfl)
          (decimalDigits_single (by decide))))))

/-! ## The submit listener (C1, C2, C3) -/

theorem mem_classList_add (cl : ClassList) (t : String) : t ∈ cl.add t := by
  unfold ClassList.add
  split
  · assumption
  · simp

theorem not_mem_classList_remove (cl : ClassList) (t : String) : t ∉ cl.remove t := by
  simp [ClassList.remove]

/-- The loop runs to its end when no field in the list is invalid. -/
theorem validateLoop_all_valid (w : World) (cl : ClassList) (ids : List String)
    (h : ∀ id ∈ ids, invalidField w.dom id = false) :
    validateLoop w cl ids = { world := w, defaultPrevented := false, thrown := none } := by
  induction ids with
  | nil => rfl
  | cons id rest ih =>
    have hid := h id (List.mem_cons_self id rest)
    have hrest := ih (fun j hj => h j (List.mem_cons_of_mem id hj))
    unfold validateLoop
    unfold invalidField validNumberText at hid
    cases hg : w.dom.getElementById id with
    | none => simpa using hrest
    | some value =>
      rw [hg] at hid
      simp only [Bool.not_not] at hid
      simp only [hid, Bool.false_eq_true, if_false]
      exact hrest

theorem focus_form (d : Dom) (id : String) (el : Element) : (d.focus id el).form = d.form := by
  unfold Dom.focus
  split <;> rfl

/-- The loop stops at the first invalid field of the list. -/
theorem validateLoop_first_invalid (w : World) (cl : ClassList) (pre post : List String)
    (id : String) (hpre : ∀ j ∈ pre, invalidField w.dom j = false)
    (hid : invalidField w.dom id = true) :
    ∃ el, w.dom.getElementById id = some el ∧
      validateLoop w cl (pre ++ id :: post) = rejectField w cl id el := by
  induction pre with
  | nil =>
    simp only [List.nil_append]
    unfold validateLoop
    unfold invalidField validNumberText at hid
    cases hg : w.dom.getElementById id with
    | none => rw [hg] at hid; simp at hid
    | some el =>
      rw [hg] at hid
      simp only [Bool.not_not] at hid
      exact ⟨el, rfl, by simp [hid]⟩
  | cons j rest ih =>
    have hj := hpre j (List.mem_cons_self j rest)
    have hrest := ih (fun k hk => hpre k (List.mem_cons_of_mem j hk))
    simp only [List.cons_append]
    unfold validateLoop
    unfold invalidField validNumberText at hj
    cases hg : w.dom.getElementById j with
    | none => simpa using hrest
    | some el =>
      rw [hg] at hj
      simp only [Bool.not_not] at hj
      simp only [hj, Bool.false_eq_true, if_false]
      exact hrest

/-- A list with an invalid field splits at its first invalid field. -/
theorem exists_first_invalid (d : Dom) (ids : List String)
    (h : ∃ id ∈ ids, invalidField d id = true) :
    ∃ pre id post, ids = pre ++ id :: post ∧ (∀ j ∈ pre, invalidField d j = false) ∧
      invalidField d id = true := by
  induction ids with
  | nil => obtain ⟨id, hmem, _⟩ := h; simp at hmem
  | cons a rest ih =>
    cases ha : invalidField d a with
    | true => exact ⟨[], a, rest, rfl, by simp, ha⟩
    | false =>
      obtain ⟨id, hmem, hid⟩ := h
      have hrest : ∃ id ∈ rest, invalidField d id = true := by
        rcases List.mem_cons.mp hmem with rfl | hm
        · rw [ha] at hid; exact absurd hid (by simp)
        · exact ⟨id, hm, hid⟩
      obtain ⟨pre, id2, post, heq, hpre, hid2⟩ := ih hrest
      refine ⟨a :: pre, id2, post, by simp [heq], ?_, hid2⟩
      intro j hj
      rcases List.mem_cons.mp hj with rfl | hm
      · exact ha
      · exact hpre j hm

/-- With a button in the form, the listener adds the class and runs the loop. -/
theorem submitListener_with_button (w : World) (form : Form) (cl : ClassList)
    (hform : w.dom.form = some form) (hbutton : form.button = some cl) :
    submitListener w =
      validateLoop { w with dom := w.dom.setButton (cl.add loading) } (cl.add loading)
        numericIds := by
  unfold submitListener
  rw [hform]
  simp only
  rw [hbutton]

theorem buttonLoading_setButton_iff (d : Dom) (form : Form) (cl : ClassList)
    (hform : d.form = some form) : buttonLoading (d.setButton cl) ↔ loading ∈ cl := by
  unfold buttonLoading Dom.setButton
  simp only [hform, Option.map_some', Option.some.injEq]
  constructor
  · rintro ⟨f, c, rfl, hc, hmem⟩
    simp only [Option.some.injEq] at hc
    rw [hc]; exact hmem
  · intro h
    exact ⟨_, cl, rfl, rfl, h⟩

/-- C1, as amended: when the form has its button and at least one of the six fields
is present with a text that does not parse as a number, the submit listener calls
`preventDefault`, shows exactly one alert, whose text names the first such field
in the order of `numericIds`, and calls `focus()` on that field: the field has the
focus afterwards when it can take focus, and otherwise the focus stays where it
was.  The fields later in the list are different fields: none of them is reported,
and the listener moves the focus to none of them. -/
theorem submit_rejects_first_invalid (w : World) (form : Form) (cl : ClassList)
    (hform : w.dom.form = some form) (hbutton : form.button = some cl)
    (hbad : ∃ id ∈ numericIds, invalidField w.dom id = true) :
    ∃ pre id post el, numericIds = pre ++ id :: post ∧
      (∀ j ∈ pre, invalidField w.dom j = false) ∧ invalidField w.dom id = true ∧
      w.dom.getElementById id = some el ∧
      (∀ j ∈ post, j ≠ id) ∧
      (submitListener w).thrown = none ∧
      (submitListener w).defaultPrevented = true ∧
      (∃ page, (submitListener w).world.alerts =
        w.alerts ++ [{ message := alertMessage id, page := page }]) ∧
      alertMessage id = "Please enter a valid number for \"" ++ id ++ "\"." ∧
      (el.focusable = true →
        (submitListener w).world.dom.activeElement = Focus.byId id) ∧
      (el.focusable = false →
        (submitListener w).world.dom.activeElement = w.dom.activeElement) := by
  obtain ⟨pre, id, post, heq, hpre, hid⟩ := exists_first_invalid w.dom numericIds hbad
  obtain ⟨el, hel, hloop⟩ :=
    validateLoop_first_invalid { w with dom := w.dom.setButton (cl.add loading) }
      (cl.add loading) pre post id hpre hid
  refine ⟨pre, id, post, el, heq, hpre, hid, hel, ?_, ?_⟩
  · have hnd : numericIds.Nodup := by decide
    rw [heq] at hnd
    intro j hj hji
    have h1 := (List.nodup_append.mp hnd).2.1
    rw [List.nodup_cons] at h1
    exact h1.1 (hji ▸ hj)
  · rw [submitListener_with_button w form cl hform hbutton, heq, hloop]
    refine ⟨rfl, rfl, ⟨_, rfl⟩, rfl, ?_, ?_⟩
    · intro hf
      simp [rejectField, Dom.focus, Dom.setButton, hf]
    · intro hf
      simp [rejectField, Dom.focus, Dom.setButton, hf]

/-- C1, as amended, on a page whose `carat` is valid and whose `depth` and `x` are
not: the alert names `depth`, and `depth`, which can take focus, has the focus. -/
theorem submit_rejects_first_invalid_witness :
    ∃ pre id post el, numericIds = pre ++ id :: post ∧
      (∀ j ∈ pre, invalidField pageInvalidDepth.dom j = false) ∧
      invalidField pageInvalidDepth.dom id = true ∧
      pageInvalidDepth.dom.getElementById id = some el ∧
      (∀ j ∈ post, j ≠ id) ∧
      (submitListener pageInvalidDepth).thrown = none ∧
      (submitListener pageInvalidDepth).defaultPrevented = true ∧
      (∃ page, (submitListener pageInvalidDepth).world.alerts =
        pageInvalidDepth.alerts ++ [{ message := alertMessage id, page := page }]) ∧
      alertMessage id = "Please enter a valid number for \"" ++ id ++ "\"." ∧
      (el.focusable = true →
        (submitListener pageInvalidDepth).world.dom.activeElement = Focus.byId id) ∧
      (el.focusable = false →
        (submitListener pageInvalidDepth).world.dom.activeElement =
          pageInvalidDepth.dom.activeElement) :=
  submit_rejects_first_invalid pageInvalidDepth { button := some ["btn"] } ["btn"] rfl rfl
    ⟨"x", by decide, by decide⟩

/-- C1 as stated fails: on a page with the form and its button whose only field,
`carat`, is present, holds `abc` and is disabled, the listener cancels the
submission and shows the alert for `carat`, but `focus()` has no effect on the
disabled field: the focus stays on the button and is not on `carat`. -/
theorem submit_focus_stays_on_disabled_field :
    pageDisabledCarat.dom.form = some { button := some ["btn"] } ∧
    numericIds.head? = some "carat" ∧
    invalidField pageDisabledCarat.dom "carat" = true ∧
    (submitListener pageDisabledCarat).thrown = none ∧
    (submitListener pageDisabledCarat).defaultPrevented = true ∧
    (submitListener pageDisabledCarat).world.alerts.map (fun a => a.message) =
      [alertMessage "carat"] ∧
    (submitListener pageDisabledCarat).world.dom.activeElement = Focus.button ∧
    (submitListener pageDisabledCarat).world.dom.activeElement ≠ Focus.byId "carat" := by
  decide

/-- C2: when each of the six fields is absent or holds a text that parses as a
number, the submit listener never calls `preventDefault`; this covers the page
on which all six fields are absent. -/
theorem submit_proceeds_when_valid (w : World)
    (hok : ∀ id ∈ numericIds, w.dom.getElementById id = none ∨
      ∃ el, w.dom.getElementById id = some el ∧ validNumberText el.value = true) :
    (submitListener w).defaultPrevented = false := by
  have hvalid : ∀ (d : Dom), d.ids = w.dom.ids →
      ∀ id ∈ numericIds, invalidField d id = false := by
    intro d hd id hmem
    have hg : d.getElementById id = w.dom.getElementById id := by
      unfold Dom.getElementById; rw [hd]
    unfold invalidField
    rw [hg]
    rcases hok id hmem with h | ⟨el, h, hv⟩
    · rw [h]
    · rw [h]; simp [hv]
  unfold submitListener
  cases hform : w.dom.form with
  | none => rfl
  | some form =>
    cases hbutton : form.button with
    | none => simp only [hbutton]
    | some cl =>
      simp only [hbutton]
      rw [validateLoop_all_valid { w with dom := w.dom.setButton (cl.add loading) }
        (cl.add loading) numericIds (hvalid _ rfl)]

/-- C2 on a page with the form and its button and none of the six fields. -/
theorem submit_proceeds_when_valid_witness :
    (submitListener
      { pageInvalidDepth with dom := { pageInvalidDepth.dom with ids := [] } }).defaultPrevented
      = false :=
  submit_proceeds_when_valid _ (fun _ _ => Or.inl rfl)

/-- The outcome of the listener on a page with a button, by cases on the fields. -/
theorem submitListener_cases (w : World) (form : Form) (cl : ClassList)
    (hform : w.dom.form = some form) (hbutton : form.button = some cl) :
    ((∀ id ∈ numericIds, invalidField w.dom id = false) ∧
      submitListener w =
        { world := { w with dom := w.dom.setButton (cl.add loading) },
          defaultPrevented := false, thrown := none }) ∨
    ((∃ id ∈ numericIds, invalidField w.dom id = true) ∧
      ∃ id el, submitListener w =
        rejectField { w with dom := w.dom.setButton (cl.add loading) } (cl.add loading)
          id el) := by
  rw [submitListener_with_button w form cl hform hbutton]
  by_cases hbad : ∃ id ∈ numericIds, invalidField w.dom id = true
  · right
    obtain ⟨pre, id, post, heq, hpre, hid⟩ := exists_first_invalid w.dom numericIds hbad
    obtain ⟨el, _, hloop⟩ :=
      validateLoop_first_invalid { w with dom := w.dom.setButton (cl.add loading) }
        (cl.add loading) pre post id hpre hid
    refine ⟨hbad, id, el, ?_⟩
    rw [heq]
    exact hloop
  · left
    have hall : ∀ id ∈ numericIds, invalidField w.dom id = false := by
      intro id hmem
      cases h : invalidField w.dom id with
      | false => rfl
      | true => exact absurd ⟨id, hmem, h⟩ hbad
    exact ⟨hall, validateLoop_all_valid { w with dom := w.dom.setButton (cl.add loading) }
      (cl.add loading) numericIds hall⟩

/-- C3: on every submit attempt, whatever the class list of the button was before,
the button carries the loading class on the page every alert of this run is shown
on (an alert is shown exactly when the submission is cancelled); once the listener
has returned, the button carries the loading class if and only if `preventDefault`
was not called: the class is absent after a cancellation due to an invalid field and
present when all present fields parsed. -/
theorem submit_loading_class (w : World) (form : Form) (cl : ClassList)
    (hform : w.dom.form = some form) (hbutton : form.button = some cl) :
    (submitListener w).thrown = none ∧
    (∃ shown, (submitListener w).world.alerts = w.alerts ++ shown ∧
      (∀ a ∈ shown, buttonLoading a.page) ∧
      (shown ≠ [] ↔ (submitListener w).defaultPrevented = true)) ∧
    (buttonLoading (submitListener w).world.dom ↔
      (submitListener w).defaultPrevented = false) ∧
    ((∃ id ∈ numericIds, invalidField w.dom id = true) →
      (submitListener w).defaultPrevented = true ∧
      ¬ buttonLoading (submitListener w).world.dom) ∧
    ((∀ id ∈ numericIds, invalidField w.dom id = false) →
      (submitListener w).defaultPrevented = false ∧
      buttonLoading (submitListener w).world.dom) := by
  have hadd : buttonLoading (w.dom.setButton (cl.add loading)) :=
    (buttonLoading_setButton_iff w.dom form _ hform).mpr (mem_classList_add cl loading)
  have hform2 : (w.dom.setButton (cl.add loading)).form = some { button := some (cl.add loading) } := by
    simp [Dom.setButton, hform]
  have hrem : ∀ id el, ¬ buttonLoading
      (rejectField { w with dom := w.dom.setButton (cl.add loading) }
        (cl.add loading) id el).world.dom := by
    intro id el h
    exact not_mem_classList_remove _ _
      ((buttonLoading_setButton_iff ((w.dom.setButton (cl.add loading)).focus id el)
        _ ((cl.add loading).remove loading)
        ((focus_form _ id el).trans hform2)).mp h)
  rcases submitListener_cases w form cl hform hbutton with
    ⟨hall, hout⟩ | ⟨hbad, id, el, hout⟩
  · rw [hout]
    refine ⟨rfl, ⟨[], by simp, by simp, by simp⟩, by simpa using hadd, ?_, fun _ => ⟨rfl, hadd⟩⟩
    rintro ⟨id, hmem, hid⟩
    rw [hall id hmem] at hid
    exact absurd hid (by simp)
  · rw [hout]
    refine ⟨rfl, ⟨[{ message := alertMessage id, page := w.dom.setButton (cl.add loading) }],
      rfl, ?_, by simp [rejectField]⟩, ?_, fun _ => ⟨rfl, hrem id el⟩, ?_⟩
    · intro a ha
      simp only [List.mem_singleton] at ha
      rw [ha]; exact hadd
    · constructor
      · intro h; exact absurd h (hrem id el)
      · intro h; simp [rejectField] at h
    · intro hall
      obtain ⟨j, hmem, hj⟩ := hbad
      rw [hall j hmem] at hj
      exact absurd hj (by simp)

/-- C3 on a page whose button does not carry the loading class beforehand and
whose `depth` field is invalid. -/
theorem submit_loading_class_witness :
    (submitListener pageInvalidDepth).thrown = none ∧
    (∃ shown, (submitListener pageInvalidDepth).world.alerts =
        pageInvalidDepth.alerts ++ shown ∧
      (∀ a ∈ shown, buttonLoading a.page) ∧
      (shown ≠ [] ↔ (submitListener pageInvalidDepth).defaultPrevented = true)) ∧
    (buttonLoading (submitListener pageInvalidDepth).world.dom ↔
      (submitListener pageInvalidDepth).defaultPrevented = false) ∧
    ((∃ id ∈ numericIds, invalidField pageInvalidDepth.dom id = true) →
      (submitListener pageInvalidDepth).defaultPrevented = true ∧
      ¬ buttonLoading (submitListener pageInvalidDepth).world.dom) ∧
    ((∀ id ∈ numericIds, invalidField pageInvalidDepth.dom id = false) →
      (submitListener pageInvalidDepth).defaultPrevented = false ∧
      buttonLoading (submitListener pageInvalidDepth).world.dom) :=
  submit_loading_class pageInvalidDepth { button := some ["btn"] } ["btn"] rfl rfl

/-- C7: on a page whose form holds no button, the submit listener raises a
`TypeError` at line 14: no field is validated (no alert, no focus change) and
`preventDefault` is not called, although the `carat` field holds `abc`. -/
theorem submit_without_button_throws :
    (domContentLoaded pageWithoutButton).listeners.submit = true ∧
    invalidField (domContentLoaded pageWithoutButton).dom "carat" = true ∧
    (submitListener (domContentLoaded pageWithoutButton)).thrown = some JSError.typeError ∧
    (submitListener (domContentLoaded pageWithoutButton)).defaultPrevented = false ∧
    (submitListener (domContentLoaded pageWithoutButton)).world.alerts = [] ∧
    (submitListener (domContentLoaded pageWithoutButton)).world.dom.activeElement =
      Focus.nothing := by
  decide

/-! ## The theme (C4, C5, C6, C10) -/

theorem getItem_setItem (storage : List (String × String)) (key value : String) :
    getItem (setItem storage key value) key = some value := by
  simp [getItem, setItem]

theorem mem_classList_add_of_mem (cl : ClassList) (t u : String) (h : u ∈ cl) :
    u ∈ cl.add t := by
  unfold ClassList.add
  split
  · exact h
  · exact List.mem_append_left _ h

/-- What a change event does on a toggle that exists. -/
theorem changeEvent_valid (w : World) (i : Nat) (b : Bool) (hi : i < w.dom.themeToggles.length) :
    changeEvent w (i, b) =
      { w with
        dom := { w.dom with
          body := if b then w.dom.body.add darkMode else w.dom.body.remove darkMode,
          themeToggles := (w.dom.themeToggles.set i b).map (fun _ => b) },
        storage := setItem w.storage "theme" (if b then "dark" else "light") } := by
  unfold changeEvent changeListener
  have hget : (w.dom.themeToggles.set i b)[i]? = some b := by
    simp [List.getElem?_set, hi]
  simp only [hget]
  cases b <;> simp

theorem changeEvent_length (w : World) (ev : Nat × Bool) :
    (changeEvent w ev).dom.themeToggles.length = w.dom.themeToggles.length := by
  unfold changeEvent changeListener
  simp only
  split
  · simp
  · split <;> simp

theorem changeEvents_length (w : World) (evs : List (Nat × Bool)) :
    (changeEvents w evs).dom.themeToggles.length = w.dom.themeToggles.length := by
  unfold changeEvents
  induction evs generalizing w with
  | nil => rfl
  | cons ev rest ih =>
    simp only [List.foldl_cons]
    rw [ih, changeEvent_length]

theorem changeEvents_snoc (w : World) (evs : List (Nat × Bool)) (ev : Nat × Bool) :
    changeEvents w (evs ++ [ev]) = changeEvent (changeEvents w evs) ev := by
  simp [changeEvents, List.foldl_append]

/-- The state right after a change event on an existing toggle. -/
theorem after_changeEvent (w : World) (i : Nat) (b : Bool) (hi : i < w.dom.themeToggles.length) :
    (changeEvent w (i, b)).dom.themeToggles.length = w.dom.themeToggles.length ∧
    (∀ t ∈ (changeEvent w (i, b)).dom.themeToggles, t = b) ∧
    (darkMode ∈ (changeEvent w (i, b)).dom.body ↔ b = true) ∧
    getItem (changeEvent w (i, b)).storage "theme" = some (if b then "dark" else "light") := by
  rw [changeEvent_valid w i b hi]
  refine ⟨by simp, ?_, ?_, getItem_setItem _ _ _⟩
  · intro t ht
    simp only [List.mem_map] at ht
    obtain ⟨_, _, rfl⟩ := ht
    rfl
  · cases b
    · simpa using not_mem_classList_remove w.dom.body darkMode
    · simpa using mem_classList_add w.dom.body darkMode

/-- The state right after startup. -/
theorem after_domContentLoaded (w : World) :
    (domContentLoaded w).storage = w.storage ∧
    (domContentLoaded w).dom.themeToggles =
      w.dom.themeToggles.map (fun _ => decide (getItem w.storage "theme" = some "dark")) ∧
    (domContentLoaded w).dom.body =
      (if getItem w.storage "theme" = some "dark" then w.dom.body.add darkMode
       else w.dom.body) := by
  have hsaved : savedTheme w.storage = "dark" ↔ getItem w.storage "theme" = some "dark" := by
    unfold savedTheme
    cases getItem w.storage "theme" with
    | none => simp
    | some v =>
      by_cases hv : v = ""
      · subst hv; simp
      · simp [hv]
  unfold domContentLoaded
  cases hform : w.dom.form <;>
    by_cases hd : getItem w.storage "theme" = some "dark" <;>
    simp [hd, hsaved]

/-- The state after a sequence of change events ending on an existing toggle. -/
theorem change_syncs_theme_aux (w : World) (evs : List (Nat × Bool)) (i : Nat) (b : Bool)
    (hi : i < w.dom.themeToggles.length) :
    (changeEvents w (evs ++ [(i, b)])).dom.themeToggles.length = w.dom.themeToggles.length ∧
    (∀ t ∈ (changeEvents w (evs ++ [(i, b)])).dom.themeToggles, t = b) ∧
    (darkMode ∈ (changeEvents w (evs ++ [(i, b)])).dom.body ↔ b = true) ∧
    getItem (changeEvents w (evs ++ [(i, b)])).storage "theme" =
      some (if b then "dark" else "light") ∧
    themeAgrees (changeEvents w (evs ++ [(i, b)])) := by
  rw [changeEvents_snoc]
  have hi2 : i < (changeEvents w evs).dom.themeToggles.length := by
    rw [changeEvents_length]; exact hi
  obtain ⟨h1, h2, h3, h4⟩ := after_changeEvent (changeEvents w evs) i b hi2
  refine ⟨by rw [h1, changeEvents_length], h2, h3, h4, ?_, ?_, ?_⟩
  · intro t ht
    rw [h2 t ht, h3]
  · rw [h3, h4]
    cases b <;> simp
  · rw [h4]
    cases b <;> simp

/-- C4: on a page with at least one toggle, in any prior state, after any sequence
of change events that ends with a change of an existing toggle to the checked
state `b`: every toggle has the checked state `b`, the body carries the dark-mode
class if and only if `b` is true, and the value stored under `theme` is `dark` if
`b` is true and `light` otherwise; so all toggles agree with each other, with the
stored preference and with the class. -/
theorem change_syncs_theme (w : World) (evs : List (Nat × Bool)) (i : Nat) (b : Bool)
    (hi : i < w.dom.themeToggles.length) :
    (changeEvents w (evs ++ [(i, b)])).dom.themeToggles.length = w.dom.themeToggles.length ∧
    (∀ t ∈ (changeEvents w (evs ++ [(i, b)])).dom.themeToggles, t = b) ∧
    (darkMode ∈ (changeEvents w (evs ++ [(i, b)])).dom.body ↔ b = true) ∧
    getItem (changeEvents w (evs ++ [(i, b)])).storage "theme" =
      some (if b then "dark" else "light") ∧
    themeAgrees (changeEvents w (evs ++ [(i, b)])) :=
  change_syncs_theme_aux w evs i b hi

/-- C4 on the page with two toggles: the second is checked, then the first is
unchecked. -/
theorem change_syncs_theme_witness :
    (changeEvents pageTwoToggles ([(1, true)] ++ [(0, false)])).dom.themeToggles.length =
      pageTwoToggles.dom.themeToggles.length ∧
    (∀ t ∈ (changeEvents pageTwoToggles ([(1, true)] ++ [(0, false)])).dom.themeToggles,
      t = false) ∧
    (darkMode ∈ (changeEvents pageTwoToggles ([(1, true)] ++ [(0, false)])).dom.body ↔
      false = true) ∧
    getItem (changeEvents pageTwoToggles ([(1, true)] ++ [(0, false)])).storage "theme" =
      some (if false then "dark" else "light") ∧
    themeAgrees (changeEvents pageTwoToggles ([(1, true)] ++ [(0, false)])) :=
  change_syncs_theme pageTwoToggles [(1, true)] 0 false (by decide)

/-- C5: on a freshly loaded page whose body does not carry the dark-mode class,
with any toggles in any state: with nothing stored under `theme`, startup leaves
the class absent and every toggle unchecked; with `dark` stored, it leaves the
class present and every toggle checked; for every stored value, the class is
present and every toggle is checked if and only if the value is exactly `dark`. -/
theorem startup_applies_stored_theme (w : World) (hfresh : darkMode ∉ w.dom.body) :
    (domContentLoaded w).dom.themeToggles.length = w.dom.themeToggles.length ∧
    (getItem w.storage "theme" = none →
      darkMode ∉ (domContentLoaded w).dom.body ∧
      ∀ t ∈ (domContentLoaded w).dom.themeToggles, t = false) ∧
    (getItem w.storage "theme" = some "dark" →
      darkMode ∈ (domContentLoaded w).dom.body ∧
      ∀ t ∈ (domContentLoaded w).dom.themeToggles, t = true) ∧
    ((darkMode ∈ (domContentLoaded w).dom.body ∧
        ∀ t ∈ (domContentLoaded w).dom.themeToggles, t = true) ↔
      getItem w.storage "theme" = some "dark") ∧
    (darkMode ∈ (domContentLoaded w).dom.body ↔ getItem w.storage "theme" = some "dark") ∧
    (∀ t ∈ (domContentLoaded w).dom.themeToggles,
      (t = true ↔ getItem w.storage "theme" = some "dark")) := by
  obtain ⟨_, htog, hbody⟩ := after_domContentLoaded w
  rw [htog, hbody]
  by_cases hd : getItem w.storage "theme" = some "dark"
  · have hmem := mem_classList_add w.dom.body darkMode
    simp [hd, hmem]
  · simp only [hd, if_false, decide_False]
    refine ⟨by simp, ?_, ?_, ?_, ?_, ?_⟩
    · intro _; exact ⟨hfresh, by simp⟩
    · intro h; exact absurd h (by simp)
    · simp [hfresh]
    · simp [hfresh]
    · simp

/-- C5 on the page with two toggles and nothing stored. -/
theorem startup_applies_stored_theme_witness :
    darkMode ∉ (domContentLoaded pageTwoToggles).dom.body ∧
    ∀ t ∈ (domContentLoaded pageTwoToggles).dom.themeToggles, t = false :=
  (startup_applies_stored_theme pageTwoToggles (by decide)).2.1 (by decide)

/-- C6: on a page with at least one toggle, after any non-empty sequence of change
events, reloading the page (fresh body without the dark-mode class, toggles in any
markup state, storage retained) and running startup gives back the state from just
before the reload: the toggles have the same checked states, namely that of the
last change event, and the dark-mode class is present if and only if it was, namely
if and only if that state was checked; the stored value is unchanged. -/
theorem reload_restores_theme (w : World) (evs : List (Nat × Bool)) (i : Nat) (b : Bool)
    (hi : i < w.dom.themeToggles.length) (markup : Dom)
    (hsame : markup.themeToggles.length = w.dom.themeToggles.length)
    (hfresh : darkMode ∉ markup.body) :
    (domContentLoaded (reload markup (changeEvents w (evs ++ [(i, b)])))).dom.themeToggles =
      (changeEvents w (evs ++ [(i, b)])).dom.themeToggles ∧
    (darkMode ∈ (domContentLoaded
        (reload markup (changeEvents w (evs ++ [(i, b)])))).dom.body ↔
      darkMode ∈ (changeEvents w (evs ++ [(i, b)])).dom.body) ∧
    (∀ t ∈ (domContentLoaded
        (reload markup (changeEvents w (evs ++ [(i, b)])))).dom.themeToggles, t = b) ∧
    (darkMode ∈ (domContentLoaded
        (reload markup (changeEvents w (evs ++ [(i, b)])))).dom.body ↔ b = true) ∧
    (domContentLoaded (reload markup (changeEvents w (evs ++ [(i, b)])))).storage =
      (changeEvents w (evs ++ [(i, b)])).storage := by
  obtain ⟨hlen, hall, hbody, hstore, _⟩ := change_syncs_theme_aux w evs i b hi
  generalize changeEvents w (evs ++ [(i, b)]) = before at hlen hall hbody hstore ⊢
  obtain ⟨hst, htog, hb⟩ := after_domContentLoaded (reload markup before)
  have hrs : (reload markup before).storage = before.storage := rfl
  have hrt : (reload markup before).dom.themeToggles = markup.themeToggles := rfl
  have hrb : (reload markup before).dom.body = markup.body := rfl
  have hdark : getItem before.storage "theme" = some "dark" ↔ b = true := by
    rw [hstore]; cases b <;> simp
  rw [hrs, hrt] at htog
  rw [hrs, hrb] at hb
  have hbody2 : darkMode ∈ (domContentLoaded (reload markup before)).dom.body ↔ b = true := by
    rw [hb]
    by_cases hbt : b = true
    · rw [if_pos (hdark.mpr hbt)]
      exact ⟨fun _ => hbt, fun _ => mem_classList_add _ _⟩
    · rw [if_neg (mt hdark.mp hbt)]
      exact ⟨fun h => absurd h hfresh, fun h => absurd h hbt⟩
  have hdec : decide (getItem before.storage "theme" = some "dark") = b := by
    by_cases hbt : b = true
    · rw [hbt]; exact decide_eq_true (hdark.mpr (hbt))
    · have hbf : b = false := by simpa using hbt
      rw [hbf]; exact decide_eq_false (mt hdark.mp hbt)
  have htog2 : (domContentLoaded (reload markup before)).dom.themeToggles =
      List.replicate w.dom.themeToggles.length b := by
    rw [htog, hdec, ← hsame]
    exact List.eq_replicate_iff.mpr ⟨by simp, by simp⟩
  have hbefore : before.dom.themeToggles = List.replicate w.dom.themeToggles.length b := by
    rw [← hlen]
    exact List.eq_replicate_iff.mpr ⟨rfl, hall⟩
  refine ⟨by rw [htog2, hbefore], by rw [hbody2, hbody], ?_, hbody2, by rw [hst, hrs]⟩
  intro t ht
  rw [htog2] at ht
  exact (List.mem_replicate.mp ht).2

/-- C6 on the scenario of the specification: two toggles and nothing stored; the
page is loaded, the first toggle is checked, the page is reloaded.  Both toggles
are checked and the dark-mode class is present. -/
theorem reload_restores_theme_witness :
    (domContentLoaded (reload pageTwoToggles.dom
      (changeEvents (domContentLoaded pageTwoToggles) ([] ++ [(0, true)])))).dom.themeToggles =
      [true, true] ∧
    darkMode ∈ (domContentLoaded (reload pageTwoToggles.dom
      (changeEvents (domContentLoaded pageTwoToggles) ([] ++ [(0, true)])))).dom.body :=
  have h := reload_restores_theme (domContentLoaded pageTwoToggles) [] 0 true (by decide)
    pageTwoToggles.dom (by decide) (by decide)
  ⟨h.1.trans (by decide), h.2.2.2.1.mpr rfl⟩

/-- C10: startup never removes the dark-mode class.  When the body already carries
it and the value stored under `theme` is absent or anything other than `dark`,
then after startup the body still carries the class, every toggle is unchecked and
the storage is unchanged; so with at least one toggle the toggles do not agree
with the class after startup, and they agree (with the class and with the stored
value) after the first change event of any existing toggle. -/
theorem startup_keeps_dark_class (w : World) (hdark : darkMode ∈ w.dom.body) :
    darkMode ∈ (domContentLoaded w).dom.body ∧
    (getItem w.storage "theme" ≠ some "dark" →
      (∀ t ∈ (domContentLoaded w).dom.themeToggles, t = false) ∧
      (domContentLoaded w).dom.themeToggles.length = w.dom.themeToggles.length ∧
      (domContentLoaded w).storage = w.storage ∧
      (w.dom.themeToggles ≠ [] → ¬ togglesMatchClass (domContentLoaded w)) ∧
      (∀ (i : Nat) (b : Bool), i < w.dom.themeToggles.length →
        togglesMatchClass (changeEvent (domContentLoaded w) (i, b)) ∧
        themeAgrees (changeEvent (domContentLoaded w) (i, b)))) := by
  obtain ⟨hst, htog, hbody⟩ := after_domContentLoaded w
  have hkeep : darkMode ∈ (domContentLoaded w).dom.body := by
    rw [hbody]
    split
    · exact mem_classList_add_of_mem _ _ _ hdark
    · exact hdark
  refine ⟨hkeep, ?_⟩
  intro hnd
  have hfalse : ∀ t ∈ (domContentLoaded w).dom.themeToggles, t = false := by
    intro t ht
    rw [htog] at ht
    simp only [List.mem_map] at ht
    obtain ⟨_, _, rfl⟩ := ht
    exact decide_eq_false hnd
  have hlen : (domContentLoaded w).dom.themeToggles.length = w.dom.themeToggles.length := by
    rw [htog]; simp
  refine ⟨hfalse, hlen, hst, ?_, ?_⟩
  · intro hne hagree
    cases htl : (domContentLoaded w).dom.themeToggles with
    | nil =>
      rw [htl] at hlen
      exact hne (List.length_eq_zero.mp hlen.symm)
    | cons t rest =>
      have hmem : t ∈ (domContentLoaded w).dom.themeToggles := by rw [htl]; exact List.mem_cons_self t rest
      have ht := hfalse t hmem
      have := (hagree t hmem).mpr hkeep
      rw [ht] at this
      exact absurd this (by simp)
  · intro i b hi
    have hi2 : i < (domContentLoaded w).dom.themeToggles.length := by rw [hlen]; exact hi
    have h := change_syncs_theme_aux (domContentLoaded w) [] i b hi2
    simp only [List.nil_append, changeEvents, List.foldl_cons, List.foldl_nil] at h
    exact ⟨h.2.2.2.2.1, h.2.2.2.2⟩

/-- C10 on a page with one checked toggle, a body that carries the dark-mode class
and `light` stored. -/
theorem startup_keeps_dark_class_witness :
    darkMode ∈ (domContentLoaded pageDarkMarkup).dom.body ∧
    (∀ t ∈ (domContentLoaded pageDarkMarkup).dom.themeToggles, t = false) ∧
    ¬ togglesMatchClass (domContentLoaded pageDarkMarkup) :=
  have h := startup_keeps_dark_class pageDarkMarkup (by decide)
  ⟨h.1, (h.2 (by decide)).1, (h.2 (by decide)).2.2.2.1 (by decide)⟩

/-! ## The two listeners are independent (C9) -/

theorem validateLoop_frame (w : World) (cl : ClassList) (ids : List String) :
    (validateLoop w cl ids).world.storage = w.storage ∧
    (validateLoop w cl ids).world.dom.body = w.dom.body ∧
    (validateLoop w cl ids).world.dom.themeToggles = w.dom.themeToggles ∧
    (validateLoop w cl ids).world.dom.ids = w.dom.ids ∧
    (validateLoop w cl ids).world.listeners = w.listeners := by
  induction ids with
  | nil => exact ⟨rfl, rfl, rfl, rfl, rfl⟩
  | cons id rest ih =>
    unfold validateLoop
    split
    · exact ih
    · split
      · rename_i el _ _
        refine ⟨rfl, ?_, ?_, ?_, rfl⟩ <;>
          (simp only [rejectField, Dom.setButton, Dom.focus]; split <;> rfl)
      · exact ih

/-- C9: the two listeners share no state.  On every page, the submit listener leaves
the storage (so the stored theme), the class list of the body (so the dark-mode
class) and the checked state of every toggle unchanged, whether it cancels the
submission, lets it proceed or raises; the change listener of any toggle, and the
whole change event, leave the form with its button (so the loading class), the
focused element and the text of every field unchanged. -/
theorem listeners_share_no_state (w : World) :
    ((submitListener w).world.storage = w.storage ∧
      getItem (submitListener w).world.storage "theme" = getItem w.storage "theme" ∧
      (submitListener w).world.dom.body = w.dom.body ∧
      (submitListener w).world.dom.themeToggles = w.dom.themeToggles) ∧
    (∀ i : Nat,
      (changeListener i w).dom.form = w.dom.form ∧
      (changeListener i w).dom.activeElement = w.dom.activeElement ∧
      (changeListener i w).dom.ids = w.dom.ids ∧
      (changeListener i w).alerts = w.alerts) ∧
    (∀ ev : Nat × Bool,
      (changeEvent w ev).dom.form = w.dom.form ∧
      (changeEvent w ev).dom.activeElement = w.dom.activeElement ∧
      (changeEvent w ev).dom.ids = w.dom.ids ∧
      (changeEvent w ev).alerts = w.alerts) := by
  have hchange : ∀ (v : World) (i : Nat),
      (changeListener i v).dom.form = v.dom.form ∧
      (changeListener i v).dom.activeElement = v.dom.activeElement ∧
      (changeListener i v).dom.ids = v.dom.ids ∧
      (changeListener i v).alerts = v.alerts := by
    intro v i
    unfold changeListener
    split
    · exact ⟨rfl, rfl, rfl, rfl⟩
    · split <;> exact ⟨rfl, rfl, rfl, rfl⟩
  refine ⟨?_, hchange w, fun ev => hchange _ ev.1⟩
  have hsub : (submitListener w).world.storage = w.storage ∧
      (submitListener w).world.dom.body = w.dom.body ∧
      (submitListener w).world.dom.themeToggles = w.dom.themeToggles := by
    unfold submitListener
    split
    · exact ⟨rfl, rfl, rfl⟩
    · split
      · exact ⟨rfl, rfl, rfl⟩
      · rename_i cl _
        have h := validateLoop_frame { w with dom := w.dom.setButton (cl.add loading) }
          (cl.add loading) numericIds
        exact ⟨h.1, h.2.1, h.2.2.1⟩
  exact ⟨hsub.1, by rw [hsub.1], hsub.2.1, hsub.2.2⟩

end GemstoneScript
